import Mathlib

/-!
Verification of the route scoring and wind-impact engine of the
route-tracker repository (src/src/app.js, src/geo-logic.js,
src/weather-api.js).  JavaScript numbers are modelled as exact
rationals; the host platform's `Math` trigonometry (an external
library from the repository's point of view) is an abstract kernel
passed as a parameter, so every definition stays executable.
-/

namespace RouteTracker

/-- JavaScript truncation toward zero (`ToIntegerOrInfinity`). -/
def jsTrunc (q : ℚ) : ℤ := if 0 ≤ q then ⌊q⌋ else ⌈q⌉

/-- JavaScript `Math.round`: round half toward positive infinity. -/
def jsRound (q : ℚ) : ℤ := ⌊q + 1/2⌋

/-- JavaScript `%` on numbers (fmod: remainder with the dividend's sign). -/
def jsMod (a b : ℚ) : ℚ := a - b * jsTrunc (a / b)

/-- JavaScript `%` restricted to integers. -/
def jsRemInt (a b : ℤ) : ℤ := a - b * jsTrunc ((a : ℚ) / (b : ℚ))

/-- A coordinate `[lng, lat]` as used throughout `app.js`. -/
abbrev Coord := ℚ × ℚ

/-- Abstract model of the host's `Math` library (sin, cos, atan2, sqrt, PI).
These are platform primitives, not repository code, so they are parameters
of the embedding. -/
structure JsMath where
  PI : ℚ
  sin : ℚ → ℚ
  cos : ℚ → ℚ
  atan2 : ℚ → ℚ → ℚ
  sqrt : ℚ → ℚ

/-- `haversineDistance` from `app.js` (returns kilometres). -/
def haversineDistance (M : JsMath) (p1 p2 : Coord) : ℚ :=
  let lon1 := p1.1
  let lat1 := p1.2
  let lon2 := p2.1
  let lat2 := p2.2
  let R : ℚ := 6371000
  let phi1 := lat1 * M.PI / 180
  let phi2 := lat2 * M.PI / 180
  let dphi := (lat2 - lat1) * M.PI / 180
  let dlam := (lon2 - lon1) * M.PI / 180
  let a := M.sin (dphi / 2) ^ 2 + M.cos phi1 * M.cos phi2 * M.sin (dlam / 2) ^ 2
  let c := 2 * M.atan2 (M.sqrt a) (M.sqrt (1 - a))
  R * c / 1000

/-- `calculateBearing` from `app.js`. -/
def calculateBearing (M : JsMath) (p1 p2 : Coord) : ℚ :=
  let lon1 := p1.1 * M.PI / 180
  let lat1 := p1.2 * M.PI / 180
  let lon2 := p2.1 * M.PI / 180
  let lat2 := p2.2 * M.PI / 180
  let y := M.sin (lon2 - lon1) * M.cos lat2
  let x := M.cos lat1 * M.sin lat2 - M.sin lat1 * M.cos lat2 * M.cos (lon2 - lon1)
  let bearing := M.atan2 y x * 180 / M.PI
  jsMod (bearing + 360) 360

/-- Result classes of the wind impact classifier (`geo-logic.js`). -/
inductive WindImpact where
  | tailwind
  | headwind
  | crosswind
deriving DecidableEq

/-- `calculateWindImpact` from `geo-logic.js`. -/
def calculateWindImpact (segmentBearing windDirection : ℚ) : WindImpact :=
  let diff0 := |segmentBearing - jsMod (windDirection + 180) 360|
  let diff := if diff0 > 180 then 360 - diff0 else diff0
  if diff < 45 then WindImpact.tailwind
  else if diff > 135 then WindImpact.headwind
  else WindImpact.crosswind

/-- The bearing the wind blows toward, as the spec describes it. -/
def windTowardBearing (w : ℚ) : ℚ := jsMod (w + 180) 360

/-- The spec's angular difference between a segment bearing and the
wind-toward bearing, normalized to at most 180 degrees. -/
def angularDiff (s w : ℚ) : ℚ :=
  let d0 := |s - windTowardBearing w|
  if d0 > 180 then 360 - d0 else d0

lemma jsMod_nonneg_lt {a b : ℚ} (ha : 0 ≤ a) (hb : 0 < b) :
    0 ≤ jsMod a b ∧ jsMod a b < b := by
  have hq : 0 ≤ a / b := div_nonneg ha hb.le
  have ht : jsTrunc (a / b) = ⌊a / b⌋ := by simp [jsTrunc, hq]
  constructor
  · have h1 : (⌊a / b⌋ : ℚ) ≤ a / b := Int.floor_le _
    have : (⌊a / b⌋ : ℚ) * b ≤ a := by
      calc (⌊a / b⌋ : ℚ) * b ≤ (a / b) * b := by
            exact mul_le_mul_of_nonneg_right h1 hb.le
        _ = a := by field_simp
    simp only [jsMod, ht]
    nlinarith
  · have h2 : a / b < (⌊a / b⌋ : ℚ) + 1 := Int.lt_floor_add_one _
    have : a < ((⌊a / b⌋ : ℚ) + 1) * b := by
      calc a = (a / b) * b := by field_simp
        _ < ((⌊a / b⌋ : ℚ) + 1) * b := by
            exact mul_lt_mul_of_pos_right h2 hb
    simp only [jsMod, ht]
    nlinarith

lemma angularDiff_le_180 {s w : ℚ} (h1 : 0 ≤ s) (h2 : s < 360) (h3 : 0 ≤ w)
    (_h4 : w < 360) : angularDiff s w ≤ 180 := by
  have htw := jsMod_nonneg_lt (a := w + 180) (b := 360) (by linarith) (by norm_num)
  unfold angularDiff windTowardBearing
  rcases htw with ⟨ht0, ht1⟩
  rcases abs_cases (s - jsMod (w + 180) 360) with ⟨he, _⟩ | ⟨he, _⟩ <;>
    simp only [he] <;> split <;> linarith

lemma calculateWindImpact_eq_cases (S W : ℚ) :
    calculateWindImpact S W =
      (if angularDiff S W < 45 then WindImpact.tailwind
        else if 135 < angularDiff S W then WindImpact.headwind
        else WindImpact.crosswind) := rfl

lemma angularDiff_45_180 : angularDiff 45 180 = 45 := by
  norm_num [angularDiff, windTowardBearing, jsMod, jsTrunc]

lemma angularDiff_135_180 : angularDiff 135 180 = 135 := by
  norm_num [angularDiff, windTowardBearing, jsMod, jsTrunc]

lemma angularDiff_0_0 : angularDiff 0 0 = 180 := by
  norm_num [angularDiff, windTowardBearing, jsMod, jsTrunc]

lemma angularDiff_180_0 : angularDiff 180 0 = 0 := by
  norm_num [angularDiff, windTowardBearing, jsMod, jsTrunc]

/-- Claim C3: the wind classifier compares the segment bearing with the
wind-toward bearing `(W + 180) mod 360`; with the angular difference
normalized to at most 180 degrees, it returns tailwind exactly when the
difference is strictly below 45, headwind exactly when it is strictly
above 135, and crosswind otherwise; a difference of exactly 45 or 135
yields crosswind, `classify(0,0)` is headwind and `classify(180,0)` is
tailwind. -/
theorem c3_wind_classifier (S W : ℚ) (h1 : 0 ≤ S) (h2 : S < 360)
    (h3 : 0 ≤ W) (h4 : W < 360) :
    angularDiff S W ≤ 180 ∧
    (calculateWindImpact S W = WindImpact.tailwind ↔ angularDiff S W < 45) ∧
    (calculateWindImpact S W = WindImpact.headwind ↔ 135 < angularDiff S W) ∧
    (calculateWindImpact S W = WindImpact.crosswind ↔
      45 ≤ angularDiff S W ∧ angularDiff S W ≤ 135) ∧
    calculateWindImpact 45 180 = WindImpact.crosswind ∧
    angularDiff 45 180 = 45 ∧
    calculateWindImpact 135 180 = WindImpact.crosswind ∧
    angularDiff 135 180 = 135 ∧
    calculateWindImpact 0 0 = WindImpact.headwind ∧
    calculateWindImpact 180 0 = WindImpact.tailwind := by
  refine ⟨angularDiff_le_180 h1 h2 h3 h4, ?_, ?_, ?_, ?_, angularDiff_45_180,
    ?_, angularDiff_135_180, ?_, ?_⟩
  · rw [calculateWindImpact_eq_cases]; split_ifs with ha hb <;> simp_all <;> linarith
  · rw [calculateWindImpact_eq_cases]; split_ifs with ha hb <;> simp_all <;> linarith
  · rw [calculateWindImpact_eq_cases]; split_ifs with ha hb <;> simp_all
  · rw [calculateWindImpact_eq_cases, angularDiff_45_180]; norm_num
  · rw [calculateWindImpact_eq_cases, angularDiff_135_180]; norm_num
  · rw [calculateWindImpact_eq_cases, angularDiff_0_0]; norm_num
  · rw [calculateWindImpact_eq_cases, angularDiff_180_0]; norm_num

/-- Witness for C3 at the concrete bearings `S = 100`, `W = 350`. -/
theorem c3_wind_classifier_witness :
    (0 ≤ (100 : ℚ)) ∧ ((100 : ℚ) < 360) ∧ (0 ≤ (350 : ℚ)) ∧ ((350 : ℚ) < 360) ∧
    (angularDiff 100 350 ≤ 180 ∧
      (calculateWindImpact 100 350 = WindImpact.tailwind ↔ angularDiff 100 350 < 45) ∧
      (calculateWindImpact 100 350 = WindImpact.headwind ↔ 135 < angularDiff 100 350) ∧
      (calculateWindImpact 100 350 = WindImpact.crosswind ↔
        45 ≤ angularDiff 100 350 ∧ angularDiff 100 350 ≤ 135) ∧
      calculateWindImpact 45 180 = WindImpact.crosswind ∧
      angularDiff 45 180 = 45 ∧
      calculateWindImpact 135 180 = WindImpact.crosswind ∧
      angularDiff 135 180 = 135 ∧
      calculateWindImpact 0 0 = WindImpact.headwind ∧
      calculateWindImpact 180 0 = WindImpact.tailwind) :=
  ⟨by norm_num, by norm_num, by norm_num, by norm_num,
    c3_wind_classifier 100 350 (by norm_num) (by norm_num) (by norm_num) (by norm_num)⟩

/-! ### Step text classification (`analyzeRouteCharacteristics`) -/

/-- JS regex `\w` word character class `[A-Za-z0-9_]`. -/
def isWordChar (c : Char) : Bool := c.isAlphanum || c = '_'

/-- Does the hay list begin with the needle list? -/
def beginsWith : List Char → List Char → Bool
  | [], _ => true
  | _ :: _, [] => false
  | c :: ns, x :: hs => c == x && beginsWith ns hs

/-- JavaScript `hay.includes(needle)` on character lists. -/
def includesSub (needle : List Char) : List Char → Bool
  | [] => beginsWith needle []
  | c :: rest => beginsWith needle (c :: rest) || includesSub needle rest

/-- `n` occurs contiguously inside `h`. -/
def SubstringOf (n h : List Char) : Prop := ∃ pre post, h = pre ++ n ++ post

lemma beginsWith_iff (n : List Char) :
    ∀ h, beginsWith n h = true ↔ ∃ t, h = n ++ t := by
  induction n with
  | nil => intro h; simp [beginsWith]
  | cons c ns ih =>
    intro h
    cases h with
    | nil => simp [beginsWith]
    | cons x hs =>
      simp only [beginsWith, Bool.and_eq_true, beq_iff_eq, ih, List.cons_append,
        List.cons.injEq]
      constructor
      · rintro ⟨rfl, t, rfl⟩; exact ⟨t, rfl, rfl⟩
      · rintro ⟨t, rfl, rfl⟩; exact ⟨rfl, t, rfl⟩

lemma includesSub_iff (n : List Char) :
    ∀ h, includesSub n h = true ↔ SubstringOf n h := by
  intro h
  induction h with
  | nil =>
    simp only [includesSub, beginsWith_iff, SubstringOf]
    constructor
    · rintro ⟨t, ht⟩
      rcases List.append_eq_nil.mp ht.symm with ⟨rfl, rfl⟩
      exact ⟨[], [], rfl⟩
    · rintro ⟨pre, post, hp⟩
      rcases List.append_eq_nil.mp hp.symm with ⟨h2, rfl⟩
      rcases List.append_eq_nil.mp h2 with ⟨rfl, rfl⟩
      exact ⟨[], rfl⟩
  | cons c rest ih =>
    simp only [includesSub, Bool.or_eq_true, beginsWith_iff, ih, SubstringOf]
    constructor
    · rintro (⟨t, ht⟩ | ⟨pre, post, ht⟩)
      · exact ⟨[], t, by simpa using ht⟩
      · exact ⟨c :: pre, post, by simp [ht]⟩
    · rintro ⟨pre, post, hp⟩
      cases pre with
      | nil => exact Or.inl ⟨post, by simpa using hp⟩
      | cons x pre' =>
        right
        rcases List.cons.injEq .. ▸ hp with ⟨rfl, hrest⟩
        exact ⟨pre', post, hrest⟩

/-- The tail check of the regex `\bA\d+\b` after the letter: one or more
digits followed by end-of-string or a non-word character. -/
def digitsBoundary : List Char → Bool
  | [] => false
  | [c] => c.isDigit
  | c :: d :: rest => c.isDigit && (if d.isDigit then digitsBoundary (d :: rest) else !isWordChar d)

/-- Scanner for the JS regex `\bL\d+\b`: `prevWord` records whether the
previous character was a word character (for the leading `\b`). -/
def roadScan (letter : Char) : Bool → List Char → Bool
  | _, [] => false
  | prevWord, c :: rest =>
    (c == letter && !prevWord && digitsBoundary rest) || roadScan letter (isWordChar c) rest

/-- JS `/\bL\d+\b/.test(s)` for a capital letter `L` ('A' or 'M'). -/
def roadPatternTest (letter : Char) (s : String) : Bool :=
  roadScan letter false s.toList

/-- Spec-side reading of the regex: the string contains `letter` followed
by one or more digits as a whole word (word boundaries on both sides). -/
def WholeWordLetterDigits (letter : Char) (s : List Char) : Prop :=
  ∃ pre ds post, s = pre ++ letter :: (ds ++ post) ∧ ds ≠ [] ∧
    (∀ c ∈ ds, c.isDigit = true) ∧
    (pre = [] ∨ ∃ c, pre.getLast? = some c ∧ isWordChar c = false) ∧
    (post = [] ∨ ∃ d rest, post = d :: rest ∧ isWordChar d = false)

/-- Spec-side reading of `digitsBoundary`. -/
def DigitsThenBoundary (l : List Char) : Prop :=
  ∃ ds post, l = ds ++ post ∧ ds ≠ [] ∧ (∀ c ∈ ds, c.isDigit = true) ∧
    (post = [] ∨ ∃ d rest, post = d :: rest ∧ isWordChar d = false)

lemma isWordChar_of_isDigit {c : Char} (h : c.isDigit = true) :
    isWordChar c = true := by
  simp [isWordChar, Char.isAlphanum, h]

lemma digitsBoundary_iff : ∀ l, digitsBoundary l = true ↔ DigitsThenBoundary l := by
  intro l
  induction l with
  | nil =>
    simp only [digitsBoundary, DigitsThenBoundary]
    constructor
    · intro h; cases h
    · rintro ⟨ds, post, hl, hne, -, -⟩
      rcases List.append_eq_nil.mp hl.symm with ⟨rfl, rfl⟩
      exact absurd rfl hne
  | cons c rest ih =>
    cases rest with
    | nil =>
      simp only [digitsBoundary, DigitsThenBoundary]
      constructor
      · intro hc
        exact ⟨[c], [], rfl, by simp, by simpa using hc, Or.inl rfl⟩
      · rintro ⟨ds, post, hl, hne, hdig, -⟩
        cases ds with
        | nil => exact absurd rfl hne
        | cons x ds0 =>
          rcases List.cons.injEq .. ▸ hl with ⟨rfl, h2⟩
          exact hdig _ (by simp)
    | cons d rest' =>
      simp only [digitsBoundary, Bool.and_eq_true]
      by_cases hd : d.isDigit = true
      · simp only [hd, if_true, ih]
        constructor
        · rintro ⟨hc, ds', post, hl, hne, hdig, hbd⟩
          exact ⟨c :: ds', post, by simp [hl], by simp,
            by intro x hx; rcases List.mem_cons.mp hx with rfl | hx
               exacts [hc, hdig x hx], hbd⟩
        · rintro ⟨ds, post, hl, hne, hdig, hbd⟩
          cases ds with
          | nil => exact absurd rfl hne
          | cons x ds0 =>
            rcases List.cons.injEq .. ▸ hl with ⟨rfl, h2⟩
            refine ⟨hdig _ (by simp), ?_⟩
            cases ds0 with
            | nil =>
              have h2a : post = d :: rest' := by simpa using h2.symm
              rcases hbd with rfl | ⟨d', r', hpost, hw⟩
              · cases h2a
              · rw [h2a] at hpost
                rcases List.cons.injEq .. ▸ hpost with ⟨rfl, -⟩
                exact absurd (isWordChar_of_isDigit hd) (by simp [hw])
            | cons y ds1 =>
              rcases List.cons.injEq .. ▸ h2 with ⟨rfl, h3⟩
              exact ⟨d :: ds1, post, by simp [h3], by simp,
                by intro z hz; exact hdig z (by simp [List.mem_cons.mp hz]),
                hbd⟩
      · simp only [hd, if_false]
        constructor
        · rintro ⟨hc, hw⟩
          exact ⟨[c], d :: rest', rfl, by simp, by simpa using hc,
            Or.inr ⟨d, rest', rfl, by simpa using hw⟩⟩
        · rintro ⟨ds, post, hl, hne, hdig, hbd⟩
          cases ds with
          | nil => exact absurd rfl hne
          | cons x ds0 =>
            rcases List.cons.injEq .. ▸ hl with ⟨rfl, h2⟩
            refine ⟨hdig _ (by simp), ?_⟩
            cases ds0 with
            | nil =>
              have h2a : post = d :: rest' := by simpa using h2.symm
              rcases hbd with rfl | ⟨d', r', hpost, hw⟩
              · cases h2a
              · rw [h2a] at hpost
                rcases List.cons.injEq .. ▸ hpost with ⟨rfl, -⟩
                simpa using hw
            | cons y ds1 =>
              rcases List.cons.injEq .. ▸ h2 with ⟨rfl, h3⟩
              exact absurd (hdig d (by simp)) (by simp [hd])

lemma getLast?_cons_of_ne_nil {α : Type} (c : α) {l : List α} (h : l ≠ []) :
    (c :: l).getLast? = l.getLast? := by
  cases l with
  | nil => exact absurd rfl h
  | cons y t => simp [List.getLast?_cons_cons]

/-- The scanner-state invariant for the whole-word regex match. -/
def ScanMatch (letter : Char) (pw : Bool) (l : List Char) : Prop :=
  ∃ pre ds post, l = pre ++ letter :: (ds ++ post) ∧ ds ≠ [] ∧
    (∀ c ∈ ds, c.isDigit = true) ∧
    ((pre = [] ∧ pw = false) ∨ ∃ c, pre.getLast? = some c ∧ isWordChar c = false) ∧
    (post = [] ∨ ∃ d rest, post = d :: rest ∧ isWordChar d = false)

lemma roadScan_iff (letter : Char) :
    ∀ l pw, roadScan letter pw l = true ↔ ScanMatch letter pw l := by
  intro l
  induction l with
  | nil =>
    intro pw
    simp only [roadScan, ScanMatch]
    constructor
    · intro h; cases h
    · rintro ⟨pre, ds, post, hl, -, -, -, -⟩
      rcases List.append_eq_nil.mp hl.symm with ⟨-, h2⟩
      cases h2
  | cons c rest ih =>
    intro pw
    simp only [roadScan, Bool.or_eq_true, Bool.and_eq_true, beq_iff_eq,
      Bool.not_eq_true', digitsBoundary_iff, ih]
    constructor
    · rintro (⟨⟨rfl, hpw⟩, ds, post, hrest, hne, hdig, hbd⟩ |
        ⟨pre', ds, post, hrest, hne, hdig, hbnd, hpost⟩)
      · exact ⟨[], ds, post, by simp [hrest], hne, hdig, Or.inl ⟨rfl, hpw⟩, hbd⟩
      · refine ⟨c :: pre', ds, post, by simp [hrest], hne, hdig, Or.inr ?_, hpost⟩
        rcases hbnd with ⟨rfl, hw⟩ | ⟨c', hlast, hw⟩
        · exact ⟨c, by simp, hw⟩
        · have hne' : pre' ≠ [] := by
            intro h; rw [h] at hlast; cases hlast
          exact ⟨c', by rw [getLast?_cons_of_ne_nil c hne']; exact hlast, hw⟩
    · rintro ⟨pre, ds, post, hl, hne, hdig, hbnd, hpost⟩
      cases pre with
      | nil =>
        rcases List.cons.injEq .. ▸ hl with ⟨rfl, hrest⟩
        have hpw : pw = false := by
          rcases hbnd with ⟨-, hpw⟩ | ⟨c', hlast, -⟩
          · exact hpw
          · cases hlast
        exact Or.inl ⟨⟨rfl, hpw⟩, ds, post, hrest, hne, hdig, hpost⟩
      | cons x pre' =>
        rcases List.cons.injEq .. ▸ hl with ⟨rfl, hrest⟩
        right
        refine ⟨pre', ds, post, hrest, hne, hdig, ?_, hpost⟩
        rcases hbnd with ⟨hcontra, -⟩ | ⟨c', hlast, hw⟩
        · cases hcontra
        · cases pre' with
          | nil =>
            simp only [List.getLast?_singleton, Option.some.injEq] at hlast
            exact Or.inl ⟨rfl, hlast ▸ hw⟩
          | cons y pre'' =>
            rw [getLast?_cons_of_ne_nil c (by simp)] at hlast
            exact Or.inr ⟨c', hlast, hw⟩

lemma roadPatternTest_iff (letter : Char) (s : String) :
    roadPatternTest letter s = true ↔ WholeWordLetterDigits letter s.toList := by
  rw [roadPatternTest, roadScan_iff]
  unfold ScanMatch WholeWordLetterDigits
  constructor
  · rintro ⟨pre, ds, post, hl, hne, hdig, hbnd, hpost⟩
    refine ⟨pre, ds, post, hl, hne, hdig, ?_, hpost⟩
    rcases hbnd with ⟨rfl, -⟩ | h
    exacts [Or.inl rfl, Or.inr h]
  · rintro ⟨pre, ds, post, hl, hne, hdig, hbnd, hpost⟩
    refine ⟨pre, ds, post, hl, hne, hdig, ?_, hpost⟩
    rcases hbnd with rfl | h
    exacts [Or.inl ⟨rfl, rfl⟩, Or.inr h]

/-- A directions step annotation: road name, reference code, distance (m). -/
structure Step where
  name : String
  ref : String
  distance : ℚ
deriving DecidableEq

/-- A route leg: a list of steps. -/
structure Leg where
  steps : List Step
deriving DecidableEq

/-- A route alternative as consumed by the analyzer and scorer. -/
structure Route where
  geometry : List Coord
  distance : ℚ
  duration : ℚ
  legs : List Leg
deriving DecidableEq

/-- JS `s.toLowerCase()` (ASCII, as exercised by the keyword lists). -/
def jsToLower (s : String) : List Char := s.toList.map Char.toLower

/-- A-road test of `analyzeRouteCharacteristics`:
`/\bA\d+\b/.test(ref) || /\bA\d+\b/.test(name)`. -/
def stepIsARoad (step : Step) : Bool :=
  roadPatternTest 'A' step.ref || roadPatternTest 'A' step.name

/-- Motorway test of `analyzeRouteCharacteristics`:
`/\bM\d+\b/.test(ref) || /\bM\d+\b/.test(name)`. -/
def stepIsMotorway (step : Step) : Bool :=
  roadPatternTest 'M' step.ref || roadPatternTest 'M' step.name

/-- Cycle-friendly keyword test of `analyzeRouteCharacteristics`: the four
keywords are checked on the lower-cased *name* only, `ncn` on the ref. -/
def stepIsCycleFriendly (step : Step) : Bool :=
  let lowerName := jsToLower step.name
  let lowerRef := jsToLower step.ref
  includesSub "cycle".toList lowerName || includesSub "path".toList lowerName ||
    includesSub "greenway".toList lowerName || includesSub "towpath".toList lowerName ||
    includesSub "ncn".toList lowerRef

/-- Scenic keyword test of `analyzeRouteCharacteristics`. -/
def stepIsScenic (step : Step) : Bool :=
  let lowerName := jsToLower step.name
  includesSub "park".toList lowerName || includesSub "forest".toList lowerName ||
    includesSub "wood".toList lowerName || includesSub "common".toList lowerName ||
    includesSub "trail".toList lowerName || includesSub "river".toList lowerName ||
    includesSub "canal".toList lowerName || includesSub "lake".toList lowerName

/-- All steps of a route, in leg order (`route.legs.forEach(leg.steps...)`). -/
def allSteps (r : Route) : List Step := (r.legs.map Leg.steps).join

/-- Accumulated `aRoadDist` of `analyzeRouteCharacteristics`. -/
def aRoadDistOf (r : Route) : ℚ :=
  (((allSteps r).filter stepIsARoad).map Step.distance).sum

/-- Accumulated `motorwayDist`. -/
def motorwayDistOf (r : Route) : ℚ :=
  (((allSteps r).filter stepIsMotorway).map Step.distance).sum

/-- Accumulated `cycleDist`. -/
def cycleDistOf (r : Route) : ℚ :=
  (((allSteps r).filter stepIsCycleFriendly).map Step.distance).sum

/-- Accumulated `scenicDist`. -/
def scenicDistOf (r : Route) : ℚ :=
  (((allSteps r).filter stepIsScenic).map Step.distance).sum

/-- Result of `analyzeRouteCharacteristics`. -/
structure RouteStats where
  aRoadPct : ℤ
  motorwayPct : ℤ
  cycleLanePct : ℤ
  scenicScore : ℤ
deriving DecidableEq

/-- `analyzeRouteCharacteristics` from `app.js`: accumulate matched step
distances per category and round each to an integer percentage of the
route distance (`route.distance || 1` guards division by zero). -/
def analyzeRouteCharacteristics (r : Route) : RouteStats :=
  let totalDist := if r.distance = 0 then 1 else r.distance
  { aRoadPct := jsRound (aRoadDistOf r / totalDist * 100)
    motorwayPct := jsRound (motorwayDistOf r / totalDist * 100)
    cycleLanePct := jsRound (cycleDistOf r / totalDist * 100)
    scenicScore := jsRound (scenicDistOf r / totalDist * 100) }

/-- Claim C7: a step's distance counts toward `aRoadPct` exactly when its
name or reference contains a capital `A` followed by one or more digits as
a whole word (and toward `motorwayPct` with `M` in place of `A`); `"A14"`
contributes to A-road, `"Abbey Road"` to neither, `"M1 Service Area"` to
motorway but not A-road. -/
theorem c7_road_regex (s : Step) :
    (stepIsARoad s = true ↔
      (WholeWordLetterDigits 'A' s.ref.toList ∨ WholeWordLetterDigits 'A' s.name.toList)) ∧
    (stepIsMotorway s = true ↔
      (WholeWordLetterDigits 'M' s.ref.toList ∨ WholeWordLetterDigits 'M' s.name.toList)) ∧
    stepIsARoad { name := "A14", ref := "", distance := 100 } = true ∧
    stepIsARoad { name := "Abbey Road", ref := "", distance := 100 } = false ∧
    stepIsMotorway { name := "Abbey Road", ref := "", distance := 100 } = false ∧
    stepIsMotorway { name := "M1 Service Area", ref := "", distance := 100 } = true ∧
    stepIsARoad { name := "M1 Service Area", ref := "", distance := 100 } = false := by
  refine ⟨?_, ?_, by decide, by decide, by decide, by decide, by decide⟩ <;>
    simp [stepIsARoad, stepIsMotorway, Bool.or_eq_true, roadPatternTest_iff]

/-- The claim C6 classification, modelled from the spec sentence: the
step's name *or reference* contains any of "cycle", "path", "greenway",
"towpath", or the reference contains "ncn". -/
def C6ClaimCounts (s : Step) : Prop :=
  (SubstringOf "cycle".toList (jsToLower s.name) ∨ SubstringOf "cycle".toList (jsToLower s.ref)) ∨
  (SubstringOf "path".toList (jsToLower s.name) ∨ SubstringOf "path".toList (jsToLower s.ref)) ∨
  (SubstringOf "greenway".toList (jsToLower s.name) ∨ SubstringOf "greenway".toList (jsToLower s.ref)) ∨
  (SubstringOf "towpath".toList (jsToLower s.name) ∨ SubstringOf "towpath".toList (jsToLower s.ref)) ∨
  SubstringOf "ncn".toList (jsToLower s.ref)

/-- Counterexample to claim C6: a step whose *reference* (not name) reads
"Cycle Path 5" is not counted as cycle-friendly by the code, although the
claim's classification accepts it. -/
theorem c6_counterexample :
    stepIsCycleFriendly { name := "", ref := "Cycle Path 5", distance := 100 } = false ∧
    C6ClaimCounts { name := "", ref := "Cycle Path 5", distance := 100 } ∧
    ¬ (stepIsCycleFriendly { name := "", ref := "Cycle Path 5", distance := 100 } = true ↔
        C6ClaimCounts { name := "", ref := "Cycle Path 5", distance := 100 }) := by
  have h1 : stepIsCycleFriendly { name := "", ref := "Cycle Path 5", distance := 100 } = false := by
    decide
  have h2 : C6ClaimCounts { name := "", ref := "Cycle Path 5", distance := 100 } :=
    Or.inl (Or.inr ⟨[], " path 5".toList, by decide⟩)
  exact ⟨h1, h2, fun h => by simp [h1] at h; exact h h2⟩

/-- Claim C6 amended: a step's distance is counted toward the
cycle-friendly category iff the lower-cased *name* contains one of
"cycle", "path", "greenway", "towpath", or the lower-cased *reference*
contains "ncn" (the four keywords are not checked against the
reference). -/
theorem c6_cycle_classifier_amended (s : Step) :
    stepIsCycleFriendly s = true ↔
      (SubstringOf "cycle".toList (jsToLower s.name) ∨
        SubstringOf "path".toList (jsToLower s.name) ∨
        SubstringOf "greenway".toList (jsToLower s.name) ∨
        SubstringOf "towpath".toList (jsToLower s.name) ∨
        SubstringOf "ncn".toList (jsToLower s.ref)) := by
  simp [stepIsCycleFriendly, Bool.or_eq_true, includesSub_iff, or_assoc]

/-! ### Wind sampling and aggregation (`computeRouteWindImpact`) -/

/-- A wind observation as consumed by the aggregation code (only the
wind-origin bearing is read by `computeRouteWindImpact`). -/
structure Weather where
  bearing : ℚ
deriving DecidableEq

/-- `fetchRouteForecast` from `weather-api.js`, given the per-point fetch
results (`none` = the fetch failed and resolved to `null`): it filters the
failures out (`results.filter(r => r !== null)`). -/
def fetchRouteForecast (results : List (Option Weather)) : List (Option Weather) :=
  results.filter (fun r => r.isSome)

/-- Result record of `computeRouteWindImpact`: integer percentages. -/
structure WindImpactResult where
  tail : ℤ
  head : ℤ
  cross : ℤ
deriving DecidableEq

/-- `numSamples = Math.min(15, Math.max(3, Math.floor(len / 50) + 2))`. -/
def numSamplesFor (n : ℕ) : ℕ := min 15 (max 3 (n / 50 + 2))

/-- The sampled indices: `Math.round(i / (numSamples - 1) * (len - 1))`
for `i = 0 .. numSamples - 1`. -/
def sampleIndicesFor (n : ℕ) : List ℤ :=
  (List.range (numSamplesFor n)).map
    (fun (i : ℕ) => jsRound ((i : ℚ) / ((numSamplesFor n : ℚ) - 1) * ((n : ℚ) - 1)))

/-- The `forEach` minimum search for the sample index closest to `midIdx`
(JS starts from `minDist = Infinity`, modelled as `none`). -/
def closestSample (midIdx : ℤ) (samples : List ℤ) : ℕ :=
  (samples.enum.foldl
    (fun acc p =>
      match acc.2 with
      | none => (p.1, some |midIdx - p.2|)
      | some m => if |midIdx - p.2| < m then (p.1, some |midIdx - p.2|) else acc)
    ((0 : ℕ), (none : Option ℤ))).1

/-- Per-segment classification: classify via the sample's wind-origin
bearing when the observation is present, else crosswind (`wd && wd.bearing
!= null ? calculateWindImpact(...) : 'crosswind'`). -/
def segmentImpact (M : JsMath) (wd : Option Weather) (s e : Coord) : WindImpact :=
  match wd with
  | some w => calculateWindImpact (calculateBearing M s e) w.bearing
  | none => WindImpact.crosswind

/-- One iteration of the segment loop of `computeRouteWindImpact`:
`seg = (i, (coords[i], coords[i+1]))`, `acc = (tailM, headM, crossM)`. -/
def windStep (M : JsMath) (sIdx : List ℤ) (weatherData : List (Option Weather))
    (acc : ℚ × ℚ × ℚ) (seg : ℕ × Coord × Coord) : ℚ × ℚ × ℚ :=
  let i := seg.1
  let s := seg.2.1
  let e := seg.2.2
  let segKm := haversineDistance M s e
  if segKm = 0 then acc
  else
    let midIdx : ℤ := ⌊(i : ℚ) + 1/2⌋
    let cs := closestSample midIdx sIdx
    let wd := (weatherData.get? cs).join
    let impact := segmentImpact M wd s e
    let segM := segKm * 1000
    match impact with
    | WindImpact.tailwind => (acc.1 + segM, acc.2.1, acc.2.2)
    | WindImpact.headwind => (acc.1, acc.2.1 + segM, acc.2.2)
    | WindImpact.crosswind => (acc.1, acc.2.1, acc.2.2 + segM)

/-- `computeRouteWindImpact` from `app.js`.  A geometry is its coordinate
list (the source's `!geometry || geometry.type !== 'LineString'` guard is
the malformed-object side of the same degenerate branch).  The awaited
`fetchRouteForecast` result is the parameter `ws` (the async fetch is the
I/O boundary of the shallow embedding); the padding loop
(`while (weatherData.length < numSamples) push(last ?? null)`) becomes the
`replicate` append. -/
def computeRouteWindImpact (M : JsMath) (coords : List Coord)
    (ws : List (Option Weather)) : WindImpactResult :=
  if coords.length < 2 then { tail := 0, head := 0, cross := 100 }
  else
    let numSamples := numSamplesFor coords.length
    let sampleIndices := sampleIndicesFor coords.length
    let weatherData := ws ++ List.replicate (numSamples - ws.length) (ws.getLast?.getD none)
    let segs := (coords.zip coords.tail).enum
    let totals := segs.foldl (windStep M sampleIndices weatherData) (0, 0, 0)
    let totalSum := totals.1 + totals.2.1 + totals.2.2
    let totalM := if totalSum = 0 then 1 else totalSum
    { tail := jsRound (totals.1 / totalM * 100)
      head := jsRound (totals.2.1 / totalM * 100)
      cross := jsRound (totals.2.2 / totalM * 100) }

/-- A concrete executable math kernel used by witnesses; it satisfies the
facts the theorems assume of the host library (`sin 0 = 0`, `sqrt 0 = 0`,
`atan2 0 x = 0`). -/
def mathQ : JsMath :=
  { PI := 3
    sin := fun x => x
    cos := fun _ => 1
    atan2 := fun y x => if x = 0 then 0 else y / x
    sqrt := fun x => x }

lemma snd_mem_of_mem_enumFrom {α : Type} :
    ∀ {l : List α} {n : ℕ} {x : ℕ × α}, x ∈ l.enumFrom n → x.2 ∈ l := by
  intro l
  induction l with
  | nil => intro n x h; cases h
  | cons a t ih =>
    intro n x h
    rcases List.mem_cons.mp h with rfl | h'
    · exact List.mem_cons_self _ _
    · exact List.mem_cons_of_mem _ (ih h')

lemma snd_mem_of_mem_enum {α : Type} {l : List α} {x : ℕ × α}
    (h : x ∈ l.enum) : x.2 ∈ l :=
  snd_mem_of_mem_enumFrom h

lemma jsRound_intCast (z : ℤ) : jsRound (z : ℚ) = z := by
  rw [jsRound, Int.floor_int_add]
  norm_num

/-- Claim C8: for `n ≥ 2` coordinates the sampler takes
`numSamples = min(15, max(3, floor(n/50) + 2))` evenly spaced indices with
first index 0 and last index `n - 1`. -/
theorem c8_sampling (n i : ℕ) (h2 : 2 ≤ n) (hi : i < numSamplesFor n) :
    numSamplesFor n = min 15 (max 3 (n / 50 + 2)) ∧
    (sampleIndicesFor n).length = numSamplesFor n ∧
    (sampleIndicesFor n).head? = some 0 ∧
    (sampleIndicesFor n).getLast? = some ((n : ℤ) - 1) ∧
    (sampleIndicesFor n).get? i =
      some (jsRound ((i : ℚ) / ((numSamplesFor n : ℚ) - 1) * ((n : ℚ) - 1))) := by
  have h3 : 3 ≤ numSamplesFor n := le_min (by norm_num) (le_max_left _ _)
  obtain ⟨k, hk⟩ : ∃ k, numSamplesFor n = k + 1 := ⟨numSamplesFor n - 1, by omega⟩
  refine ⟨rfl, by simp [sampleIndicesFor], ?_, ?_, ?_⟩
  · rw [sampleIndicesFor, hk, List.range_succ_eq_map, List.map_cons, List.head?_cons]
    norm_num [jsRound]
  · rw [sampleIndicesFor, hk, List.range_succ, List.map_append, List.map_singleton,
      List.getLast?_concat]
    have hkq : ((k + 1 : ℕ) : ℚ) - 1 = (k : ℚ) := by push_cast; ring
    have hkne : (k : ℚ) ≠ 0 := Nat.cast_ne_zero.mpr (by omega)
    rw [hkq, div_self hkne, one_mul]
    have hcast : ((n : ℚ) - 1) = (((n : ℤ) - 1 : ℤ) : ℚ) := by push_cast; ring
    rw [hcast, jsRound_intCast]
  · rw [sampleIndicesFor, List.get?_map, List.get?_range hi, Option.map_some']

/-- Witness for C8 at `n = 120`, `i = 1` (four samples, second at index 40). -/
theorem c8_sampling_witness :
    2 ≤ 120 ∧ 1 < numSamplesFor 120 ∧
    (numSamplesFor 120 = min 15 (max 3 (120 / 50 + 2)) ∧
      (sampleIndicesFor 120).length = numSamplesFor 120 ∧
      (sampleIndicesFor 120).head? = some 0 ∧
      (sampleIndicesFor 120).getLast? = some ((120 : ℤ) - 1) ∧
      (sampleIndicesFor 120).get? 1 =
        some (jsRound ((1 : ℚ) / ((numSamplesFor 120 : ℚ) - 1) * ((120 : ℚ) - 1)))) :=
  ⟨by norm_num, by norm_num [numSamplesFor], c8_sampling 120 1 (by norm_num)
    (by norm_num [numSamplesFor])⟩

lemma haversineDistance_self (M : JsMath) (hsin : M.sin 0 = 0)
    (hsqrt : M.sqrt 0 = 0) (hatan : ∀ x, M.atan2 0 x = 0) (p q : Coord)
    (hpq : p = q) : haversineDistance M p q = 0 := by
  subst hpq
  simp [haversineDistance, hsin, hsqrt, hatan]

lemma foldl_windStep_of_zero (M : JsMath) (sIdx : List ℤ)
    (wd : List (Option Weather)) :
    ∀ (segs : List (ℕ × Coord × Coord)) (acc : ℚ × ℚ × ℚ),
      (∀ seg ∈ segs, haversineDistance M seg.2.1 seg.2.2 = 0) →
      segs.foldl (windStep M sIdx wd) acc = acc := by
  intro segs
  induction segs with
  | nil => intro acc _; rfl
  | cons seg rest ih =>
    intro acc h
    rw [List.foldl_cons,
      show windStep M sIdx wd acc seg = acc by
        simp [windStep, h seg (List.mem_cons_self _ _)]]
    exact ih acc fun s hs => h s (List.mem_cons_of_mem _ hs)

lemma computeRouteWindImpact_shortGeom (M : JsMath) (ws : List (Option Weather))
    (coords : List Coord) (h : coords.length < 2) :
    computeRouteWindImpact M coords ws = { tail := 0, head := 0, cross := 100 } := by
  rw [computeRouteWindImpact, if_pos h]

lemma computeRouteWindImpact_allDup (M : JsMath) (ws : List (Option Weather))
    (coords : List Coord) (hsin : M.sin 0 = 0) (hsqrt : M.sqrt 0 = 0)
    (hatan : ∀ x, M.atan2 0 x = 0) (hlen : 2 ≤ coords.length)
    (hdup : ∀ p ∈ coords.zip coords.tail, p.1 = p.2) :
    computeRouteWindImpact M coords ws = { tail := 0, head := 0, cross := 0 } := by
  have hz : ∀ seg ∈ (coords.zip coords.tail).enum,
      haversineDistance M seg.2.1 seg.2.2 = 0 := fun seg hseg =>
    haversineDistance_self M hsin hsqrt hatan _ _ (hdup seg.2 (snd_mem_of_mem_enum hseg))
  simp only [computeRouteWindImpact]
  rw [if_neg (show ¬ coords.length < 2 by omega)]
  rw [foldl_windStep_of_zero _ _ _ _ _ hz]
  norm_num [jsRound]

/-- Counterexample to claim C4: on the degenerate two-point geometry whose
points coincide, the code returns `{tail: 0, head: 0, cross: 0}`, not the
claimed `{tail: 0, head: 0, cross: 100}`. -/
theorem c4_counterexample :
    computeRouteWindImpact mathQ [((0 : ℚ), (0 : ℚ)), ((0 : ℚ), (0 : ℚ))] [] =
      { tail := 0, head := 0, cross := 0 } ∧
    ({ tail := 0, head := 0, cross := 0 } : WindImpactResult) ≠
      { tail := 0, head := 0, cross := 100 } := by
  constructor
  · exact computeRouteWindImpact_allDup mathQ [] _ rfl rfl
      (fun x => by simp [mathQ]) (by norm_num) (by simp)
  · decide

/-- Claim C4, amended: a geometry with fewer than 2 coordinates yields
exactly `{tail: 0, head: 0, cross: 100}`; a geometry of two or more
coordinates whose consecutive points are all duplicates (every segment has
zero length) yields `{tail: 0, head: 0, cross: 0}`; neither raises an
error. -/
theorem c4_degenerate_geometry_amended (M : JsMath) (ws : List (Option Weather))
    (coords : List Coord) (hsin : M.sin 0 = 0) (hsqrt : M.sqrt 0 = 0)
    (hatan : ∀ x, M.atan2 0 x = 0)
    (hdeg : coords.length < 2 ∨ ∀ p ∈ coords.zip coords.tail, p.1 = p.2) :
    computeRouteWindImpact M coords ws =
      (if coords.length < 2 then { tail := 0, head := 0, cross := 100 }
        else { tail := 0, head := 0, cross := 0 }) := by
  by_cases h : coords.length < 2
  · rw [if_pos h, computeRouteWindImpact_shortGeom M ws coords h]
  · rcases hdeg with h' | hdup
    · exact absurd h' h
    · rw [if_neg h,
        computeRouteWindImpact_allDup M ws coords hsin hsqrt hatan (by omega) hdup]

/-- Witness for C4 (amended) on a single-point geometry. -/
theorem c4_degenerate_geometry_witness :
    mathQ.sin 0 = 0 ∧ mathQ.sqrt 0 = 0 ∧ (∀ x, mathQ.atan2 0 x = 0) ∧
    (([((5 : ℚ), (5 : ℚ))] : List Coord).length < 2 ∨
      ∀ p ∈ ([((5 : ℚ), (5 : ℚ))] : List Coord).zip
        ([((5 : ℚ), (5 : ℚ))] : List Coord).tail, p.1 = p.2) ∧
    computeRouteWindImpact mathQ [((5 : ℚ), (5 : ℚ))] [] =
      (if ([((5 : ℚ), (5 : ℚ))] : List Coord).length < 2
        then { tail := 0, head := 0, cross := 100 }
        else { tail := 0, head := 0, cross := 0 }) :=
  ⟨rfl, rfl, fun x => by simp [mathQ], Or.inl (by norm_num),
    c4_degenerate_geometry_amended mathQ [] _ rfl rfl (fun x => by simp [mathQ])
      (Or.inl (by norm_num))⟩

/-- The metres a segment `(start, end)` contributes to the bucket totals
(0 when the zero-length guard skips it). -/
def pairContribution (M : JsMath) (p : Coord × Coord) : ℚ :=
  if haversineDistance M p.1 p.2 = 0 then 0 else haversineDistance M p.1 p.2 * 1000

/-- Contribution of an enumerated segment. -/
def segContribution (M : JsMath) (seg : ℕ × Coord × Coord) : ℚ :=
  pairContribution M seg.2

lemma windStep_sum (M : JsMath) (sIdx : List ℤ) (wd : List (Option Weather))
    (acc : ℚ × ℚ × ℚ) (seg : ℕ × Coord × Coord) :
    (windStep M sIdx wd acc seg).1 + (windStep M sIdx wd acc seg).2.1 +
        (windStep M sIdx wd acc seg).2.2 =
      acc.1 + acc.2.1 + acc.2.2 + segContribution M seg := by
  simp only [windStep, segContribution, pairContribution]
  split_ifs with h
  · ring
  · rcases hI : segmentImpact M
        ((wd.get? (closestSample ⌊(seg.1 : ℚ) + 1/2⌋ sIdx)).join) seg.2.1 seg.2.2 with
      _ | _ | _ <;> simp [hI] <;> ring

lemma foldl_windStep_sum (M : JsMath) (sIdx : List ℤ) (wd : List (Option Weather)) :
    ∀ (segs : List (ℕ × Coord × Coord)) (acc : ℚ × ℚ × ℚ),
      (segs.foldl (windStep M sIdx wd) acc).1 +
          (segs.foldl (windStep M sIdx wd) acc).2.1 +
          (segs.foldl (windStep M sIdx wd) acc).2.2 =
        acc.1 + acc.2.1 + acc.2.2 + (segs.map (segContribution M)).sum := by
  intro segs
  induction segs with
  | nil => intro acc; simp
  | cons seg rest ih =>
    intro acc
    rw [List.foldl_cons, ih (windStep M sIdx wd acc seg), List.map_cons, List.sum_cons,
      windStep_sum]
    ring

lemma enum_map_comp_snd {α β : Type} (l : List α) (g : α → β) :
    l.enum.map (fun x => g x.2) = l.map g := by
  rw [show (fun x : ℕ × α => g x.2) = g ∘ Prod.snd from rfl, ← List.map_map,
    List.enum_map_snd]

lemma jsRound_le (v : ℚ) : (jsRound v : ℚ) ≤ v + 1/2 := by
  rw [jsRound]; exact_mod_cast Int.floor_le (v + 1/2)

lemma lt_jsRound (v : ℚ) : v - 1/2 < (jsRound v : ℚ) := by
  rw [jsRound]
  have := Int.sub_one_lt_floor (v + 1/2)
  push_cast at this ⊢
  linarith

lemma jsRound_share_sum (a b c t : ℚ) (ht : t ≠ 0) (hsum : a + b + c = t) :
    jsRound (a / t * 100) + jsRound (b / t * 100) + jsRound (c / t * 100) ∈
      ({99, 100, 101} : Set ℤ) := by
  have hxyz : a / t * 100 + b / t * 100 + c / t * 100 = 100 := by
    field_simp
    linarith
  have h1 := jsRound_le (a / t * 100)
  have h2 := jsRound_le (b / t * 100)
  have h3 := jsRound_le (c / t * 100)
  have h4 := lt_jsRound (a / t * 100)
  have h5 := lt_jsRound (b / t * 100)
  have h6 := lt_jsRound (c / t * 100)
  set s : ℤ := jsRound (a / t * 100) + jsRound (b / t * 100) + jsRound (c / t * 100)
    with hs
  have hup : (s : ℚ) < 102 := by rw [hs]; push_cast; linarith
  have hdown : (98 : ℚ) < (s : ℚ) := by rw [hs]; push_cast; linarith
  have hup' : s < 102 := by exact_mod_cast hup
  have hdown' : 98 < s := by exact_mod_cast hdown
  simp only [Set.mem_insert_iff, Set.mem_singleton_iff]
  omega

lemma zip_contribution_nonneg (M : JsMath) (coords : List Coord)
    (hd : ∀ p ∈ coords.zip coords.tail, 0 ≤ haversineDistance M p.1 p.2) :
    ∀ q ∈ (coords.zip coords.tail).map (pairContribution M), 0 ≤ q := by
  intro q hq
  rcases List.mem_map.mp hq with ⟨p, hp, rfl⟩
  rw [pairContribution]
  split_ifs with h
  · exact le_refl 0
  · have := hd p hp
    positivity

lemma zip_contribution_sum_pos (M : JsMath) (coords : List Coord)
    (hd : ∀ p ∈ coords.zip coords.tail, 0 ≤ haversineDistance M p.1 p.2)
    {p0 : Coord × Coord} (hp0 : p0 ∈ coords.zip coords.tail)
    (hp0pos : 0 < haversineDistance M p0.1 p0.2) :
    0 < ((coords.zip coords.tail).map (pairContribution M)).sum := by
  have hmem : pairContribution M p0 ∈ (coords.zip coords.tail).map (pairContribution M) :=
    List.mem_map_of_mem _ hp0
  have hle := List.single_le_sum (zip_contribution_nonneg M coords hd) _ hmem
  have hppos : 0 < pairContribution M p0 := by
    rw [pairContribution, if_neg (ne_of_gt hp0pos)]
    positivity
  linarith

lemma length_ge_two_of_mem_zip {coords : List Coord} {p : Coord × Coord}
    (hp : p ∈ coords.zip coords.tail) : ¬ coords.length < 2 := by
  rcases coords with _ | ⟨a, _ | ⟨b, rest⟩⟩
  · simp at hp
  · simp at hp
  · simp only [List.length_cons]
    omega

/-- Claim C5: for a geometry with at least one positive-length segment
(all segment lengths nonnegative, as with the real haversine formula) and
at least one successful weather sample, the three integer percentages
returned by `computeRouteWindImpact` sum to 99, 100 or 101. -/
theorem c5_percentage_sum (M : JsMath) (coords : List Coord)
    (ws : List (Option Weather))
    (hd : ∀ p ∈ coords.zip coords.tail, 0 ≤ haversineDistance M p.1 p.2)
    (hpos : ∃ p ∈ coords.zip coords.tail, 0 < haversineDistance M p.1 p.2)
    (_hw : ∃ w ∈ ws, w.isSome = true) :
    (computeRouteWindImpact M coords ws).tail +
        (computeRouteWindImpact M coords ws).head +
        (computeRouteWindImpact M coords ws).cross ∈
      ({99, 100, 101} : Set ℤ) := by
  obtain ⟨p0, hp0, hp0pos⟩ := hpos
  have hlen := length_ge_two_of_mem_zip hp0
  simp only [computeRouteWindImpact]
  rw [if_neg hlen]
  have hfold := foldl_windStep_sum M (sampleIndicesFor coords.length)
    (ws ++ List.replicate (numSamplesFor coords.length - ws.length) (ws.getLast?.getD none))
    ((coords.zip coords.tail).enum) (0, 0, 0)
  have hmap : (((coords.zip coords.tail).enum).map (segContribution M)).sum =
      ((coords.zip coords.tail).map (pairContribution M)).sum := by
    rw [show segContribution M = (fun x : ℕ × Coord × Coord => pairContribution M x.2)
      from rfl, enum_map_comp_snd]
  have hpossum := zip_contribution_sum_pos M coords hd hp0 hp0pos
  rw [hmap] at hfold
  simp only [Prod.fst, Prod.snd] at hfold
  have hT : (((coords.zip coords.tail).enum).foldl
        (windStep M (sampleIndicesFor coords.length)
          (ws ++ List.replicate (numSamplesFor coords.length - ws.length)
            (ws.getLast?.getD none))) (0, 0, 0)).1 +
      (((coords.zip coords.tail).enum).foldl
        (windStep M (sampleIndicesFor coords.length)
          (ws ++ List.replicate (numSamplesFor coords.length - ws.length)
            (ws.getLast?.getD none))) (0, 0, 0)).2.1 +
      (((coords.zip coords.tail).enum).foldl
        (windStep M (sampleIndicesFor coords.length)
          (ws ++ List.replicate (numSamplesFor coords.length - ws.length)
            (ws.getLast?.getD none))) (0, 0, 0)).2.2 =
      ((coords.zip coords.tail).map (pairContribution M)).sum := by
    rw [hfold]; ring
  rw [if_neg (by rw [hT]; exact ne_of_gt hpossum)]
  exact hT ▸ jsRound_share_sum _ _ _ _ (ne_of_gt (hT ▸ hpossum)) hT

/-- Witness for C5: two distinct points one degree of longitude apart,
one successful sample. -/
theorem c5_percentage_sum_witness :
    (∀ p ∈ ([((0 : ℚ), (0 : ℚ)), ((1 : ℚ), (0 : ℚ))] : List Coord).zip
        ([((0 : ℚ), (0 : ℚ)), ((1 : ℚ), (0 : ℚ))] : List Coord).tail,
      0 ≤ haversineDistance mathQ p.1 p.2) ∧
    (∃ p ∈ ([((0 : ℚ), (0 : ℚ)), ((1 : ℚ), (0 : ℚ))] : List Coord).zip
        ([((0 : ℚ), (0 : ℚ)), ((1 : ℚ), (0 : ℚ))] : List Coord).tail,
      0 < haversineDistance mathQ p.1 p.2) ∧
    (∃ w ∈ [some ({ bearing := 0 } : Weather)], w.isSome = true) ∧
    (computeRouteWindImpact mathQ [((0 : ℚ), (0 : ℚ)), ((1 : ℚ), (0 : ℚ))]
          [some ({ bearing := 0 } : Weather)]).tail +
        (computeRouteWindImpact mathQ [((0 : ℚ), (0 : ℚ)), ((1 : ℚ), (0 : ℚ))]
          [some ({ bearing := 0 } : Weather)]).head +
        (computeRouteWindImpact mathQ [((0 : ℚ), (0 : ℚ)), ((1 : ℚ), (0 : ℚ))]
          [some ({ bearing := 0 } : Weather)]).cross ∈
      ({99, 100, 101} : Set ℤ) := by
  have hd : ∀ p ∈ ([((0 : ℚ), (0 : ℚ)), ((1 : ℚ), (0 : ℚ))] : List Coord).zip
      ([((0 : ℚ), (0 : ℚ)), ((1 : ℚ), (0 : ℚ))] : List Coord).tail,
      0 ≤ haversineDistance mathQ p.1 p.2 := by
    intro p hp
    simp only [List.tail_cons, List.zip_cons_cons, List.zip_nil_right,
      List.mem_singleton] at hp
    subst hp
    norm_num [haversineDistance, mathQ]
  have hpos : ∃ p ∈ ([((0 : ℚ), (0 : ℚ)), ((1 : ℚ), (0 : ℚ))] : List Coord).zip
      ([((0 : ℚ), (0 : ℚ)), ((1 : ℚ), (0 : ℚ))] : List Coord).tail,
      0 < haversineDistance mathQ p.1 p.2 := by
    refine ⟨(((0 : ℚ), (0 : ℚ)), ((1 : ℚ), (0 : ℚ))), by simp, ?_⟩
    norm_num [haversineDistance, mathQ]
  have hw : ∃ w ∈ [some ({ bearing := 0 } : Weather)], w.isSome = true :=
    ⟨some { bearing := 0 }, List.mem_singleton.mpr rfl, rfl⟩
  exact ⟨hd, hpos, hw, c5_percentage_sum mathQ _ _ hd hpos hw⟩

lemma windStep_allNone (M : JsMath) (sIdx : List ℤ) (wd : List (Option Weather))
    (hnone : ∀ k, (wd.get? k).join = (none : Option Weather))
    (acc : ℚ × ℚ × ℚ) (seg : ℕ × Coord × Coord) :
    windStep M sIdx wd acc seg = (acc.1, acc.2.1, acc.2.2 + segContribution M seg) := by
  simp only [windStep, segContribution, pairContribution]
  split_ifs with h
  · simp
  · rw [hnone]
    simp [segmentImpact]

lemma foldl_windStep_allNone (M : JsMath) (sIdx : List ℤ) (wd : List (Option Weather))
    (hnone : ∀ k, (wd.get? k).join = (none : Option Weather)) :
    ∀ (segs : List (ℕ × Coord × Coord)) (acc : ℚ × ℚ × ℚ),
      segs.foldl (windStep M sIdx wd) acc =
        (acc.1, acc.2.1, acc.2.2 + (segs.map (segContribution M)).sum) := by
  intro segs
  induction segs with
  | nil => intro acc; simp
  | cons seg rest ih =>
    intro acc
    rw [List.foldl_cons, windStep_allNone M sIdx wd hnone, ih]
    simp [add_assoc]

lemma replicate_none_join (m k : ℕ) :
    ((List.replicate m (none : Option Weather)).get? k).join = none := by
  rw [List.get?_eq_getElem?, List.getElem?_replicate]
  split_ifs <;> rfl

/-- Claim C10: when every per-sample fetch fails the batch fetcher returns
`[]`, `computeRouteWindImpact` pads the sample array with nulls and
classifies every positive-length segment as crosswind, and on a geometry
with a positive-length segment (lengths nonnegative, as with the real
haversine formula) the result is exactly `{tail: 0, head: 0, cross: 100}`
— no exception is raised. -/
theorem c10_all_fetch_failed (M : JsMath) (coords : List Coord)
    (results : List (Option Weather))
    (hall : ∀ r ∈ results, r = none)
    (hd : ∀ p ∈ coords.zip coords.tail, 0 ≤ haversineDistance M p.1 p.2)
    (hpos : ∃ p ∈ coords.zip coords.tail, 0 < haversineDistance M p.1 p.2) :
    fetchRouteForecast results = [] ∧
    computeRouteWindImpact M coords (fetchRouteForecast results) =
      { tail := 0, head := 0, cross := 100 } := by
  have hempty : fetchRouteForecast results = [] := by
    rw [fetchRouteForecast, List.filter_eq_nil]
    intro a ha
    rw [hall a ha]
    simp
  refine ⟨hempty, ?_⟩
  rw [hempty]
  obtain ⟨p0, hp0, hp0pos⟩ := hpos
  have hlen := length_ge_two_of_mem_zip hp0
  simp only [computeRouteWindImpact]
  rw [if_neg hlen]
  simp only [List.nil_append, List.length_nil, Nat.sub_zero, List.getLast?_nil,
    Option.getD_none]
  rw [foldl_windStep_allNone M (sampleIndicesFor coords.length)
    (List.replicate (numSamplesFor coords.length) none)
    (fun k => replicate_none_join _ k) ((coords.zip coords.tail).enum) (0, 0, 0)]
  have hmap : (((coords.zip coords.tail).enum).map (segContribution M)).sum =
      ((coords.zip coords.tail).map (pairContribution M)).sum := by
    rw [show segContribution M = (fun x : ℕ × Coord × Coord => pairContribution M x.2)
      from rfl, enum_map_comp_snd]
  rw [hmap]
  have hpossum := zip_contribution_sum_pos M coords hd hp0 hp0pos
  have hne : ¬ ((0 : ℚ) + 0 + (0 + ((coords.zip coords.tail).map (pairContribution M)).sum)
      = 0) := by
    intro h
    rw [zero_add, zero_add, zero_add] at h
    exact (ne_of_gt hpossum) h
  rw [if_neg hne]
  rw [zero_add, zero_add, zero_add, div_self (ne_of_gt hpossum)]
  norm_num [jsRound]

/-- Witness for C10 on the same two-point geometry with two failed
fetches. -/
theorem c10_all_fetch_failed_witness :
    (∀ r ∈ ([none, none] : List (Option Weather)), r = none) ∧
    (∀ p ∈ ([((0 : ℚ), (0 : ℚ)), ((1 : ℚ), (0 : ℚ))] : List Coord).zip
        ([((0 : ℚ), (0 : ℚ)), ((1 : ℚ), (0 : ℚ))] : List Coord).tail,
      0 ≤ haversineDistance mathQ p.1 p.2) ∧
    (∃ p ∈ ([((0 : ℚ), (0 : ℚ)), ((1 : ℚ), (0 : ℚ))] : List Coord).zip
        ([((0 : ℚ), (0 : ℚ)), ((1 : ℚ), (0 : ℚ))] : List Coord).tail,
      0 < haversineDistance mathQ p.1 p.2) ∧
    (fetchRouteForecast [none, none] = [] ∧
      computeRouteWindImpact mathQ [((0 : ℚ), (0 : ℚ)), ((1 : ℚ), (0 : ℚ))]
          (fetchRouteForecast [none, none]) =
        { tail := 0, head := 0, cross := 100 }) := by
  have hall : ∀ r ∈ ([none, none] : List (Option Weather)), r = none := by
    intro r hr
    rcases List.mem_cons.mp hr with rfl | hr'
    · rfl
    · exact List.mem_singleton.mp hr'
  have hd : ∀ p ∈ ([((0 : ℚ), (0 : ℚ)), ((1 : ℚ), (0 : ℚ))] : List Coord).zip
      ([((0 : ℚ), (0 : ℚ)), ((1 : ℚ), (0 : ℚ))] : List Coord).tail,
      0 ≤ haversineDistance mathQ p.1 p.2 := by
    intro p hp
    simp only [List.tail_cons, List.zip_cons_cons, List.zip_nil_right,
      List.mem_singleton] at hp
    subst hp
    norm_num [haversineDistance, mathQ]
  have hpos : ∃ p ∈ ([((0 : ℚ), (0 : ℚ)), ((1 : ℚ), (0 : ℚ))] : List Coord).zip
      ([((0 : ℚ), (0 : ℚ)), ((1 : ℚ), (0 : ℚ))] : List Coord).tail,
      0 < haversineDistance mathQ p.1 p.2 := by
    refine ⟨(((0 : ℚ), (0 : ℚ)), ((1 : ℚ), (0 : ℚ))), by simp, ?_⟩
    norm_num [haversineDistance, mathQ]
  exact ⟨hall, hd, hpos, c10_all_fetch_failed mathQ _ _ hall hd hpos⟩

/-! ### Temporal weather projection (`updateWeatherForProgress`) -/

/-- The time-mode select: depart at / arrive by. -/
inductive TimeMode where
  | depart
  | arrive
deriving DecidableEq

/-- The weather product chosen by `updateWeatherForProgress`: a forecast
frame (`isLong` = the long-range config, model run epoch-ms, lead time as
hours and minutes) or an observation frame (epoch-ms timestamp). -/
inductive WeatherProduct where
  | forecast (isLong : Bool) (modelRun : ℤ) (leadH : ℤ) (leadM : ℤ)
  | observation (ts : ℤ)
deriving DecidableEq

/-- `Date.setMinutes(0,0,0)` on a UTC epoch-ms value: truncate to the
start of the hour. -/
def hourFloorMs (t : ℤ) : ℤ := 3600000 * ⌊(t : ℚ) / 3600000⌋

/-- Simulated time of `updateWeatherForProgress`: journey start (arrival
minus full duration in arrive-by mode) plus `progress × durationHours`,
in epoch-ms (`Date` clips to whole milliseconds). -/
def simulatedTimeMs (mode : TimeMode) (inputTime : ℤ) (durationHours : ℚ)
    (progress : ℚ) : ℤ :=
  let startTime : ℤ :=
    match mode with
    | TimeMode.arrive => jsTrunc ((inputTime : ℚ) - durationHours * 60 * 60 * 1000)
    | TimeMode.depart => inputTime
  jsTrunc ((startTime : ℚ) + progress * durationHours * 60 * 60 * 1000)

/-- The product-selection core of `updateWeatherForProgress` from
`app.js` (the DOM reads and the URL/layer plumbing around it are I/O). -/
def updateWeatherForProgress (mode : TimeMode) (inputTime : ℤ)
    (durationHours : ℚ) (progress : ℚ) (now : ℤ) : WeatherProduct :=
  let simulatedTime := simulatedTimeMs mode inputTime durationHours progress
  let observationCutoff := now - 20 * 60 * 1000
  if simulatedTime > observationCutoff then
    let modelRun := hourFloorMs (now - 3 * 60 * 60 * 1000)
    let diffMs := simulatedTime - modelRun
    let diffHours : ℚ := (diffMs : ℚ) / (1000 * 60 * 60)
    if diffHours ≤ 11 then
      let msPer15 : ℚ := 15 * 60 * 1000
      let roundedDiff := jsRound ((diffMs : ℚ) / msPer15) * (15 * 60 * 1000)
      let totalMins := ⌊(roundedDiff : ℚ) / 60000⌋
      WeatherProduct.forecast false modelRun ⌊(totalMins : ℚ) / 60⌋ (jsRemInt totalMins 60)
    else
      WeatherProduct.forecast true modelRun (jsRound diffHours) 0
  else
    let msPer15 : ℚ := 15 * 60 * 1000
    WeatherProduct.observation (jsRound ((simulatedTime : ℚ) / msPer15) * (15 * 60 * 1000))

/-- Modelled from the original claim C2 wording: "the most recent
3-hour-aligned model run at or before now". -/
def specModelRun3h (now : ℤ) : ℤ := 10800000 * ⌊(now : ℚ) / 10800000⌋

/-- Modelled from the amended claim C2 wording: simulated time is journey
start plus `progress × duration` (journey start = arrival minus full
duration in arrive-by mode); a simulated time at least 20 minutes in the
past selects an observation keyed to the nearest 15-minute timestamp;
otherwise the forecast is anchored to the top of the hour three hours
before now, with the lead time in a 15-minute-rounded short bucket when at
most 11 hours and a whole-hour-rounded long bucket otherwise. -/
def c2AmendedProduct (mode : TimeMode) (inputTime : ℤ) (durationHours : ℚ)
    (progress : ℚ) (now : ℤ) : WeatherProduct :=
  let journeyStart : ℤ :=
    match mode with
    | TimeMode.arrive => jsTrunc ((inputTime : ℚ) - durationHours * 60 * 60 * 1000)
    | TimeMode.depart => inputTime
  let simulatedTime := jsTrunc ((journeyStart : ℚ) + progress * durationHours * 60 * 60 * 1000)
  if now - simulatedTime ≥ 20 * 60 * 1000 then
    WeatherProduct.observation
      (jsRound ((simulatedTime : ℚ) / (15 * 60 * 1000)) * (15 * 60 * 1000))
  else
    let modelRun := hourFloorMs (now - 3 * 60 * 60 * 1000)
    let lead := simulatedTime - modelRun
    if (lead : ℚ) / (1000 * 60 * 60) ≤ 11 then
      let roundedLead := jsRound ((lead : ℚ) / (15 * 60 * 1000)) * (15 * 60 * 1000)
      let totalMins := ⌊(roundedLead : ℚ) / 60000⌋
      WeatherProduct.forecast false modelRun ⌊(totalMins : ℚ) / 60⌋ (jsRemInt totalMins 60)
    else
      WeatherProduct.forecast true modelRun (jsRound ((lead : ℚ) / (1000 * 60 * 60))) 0

/-- Counterexample to claim C2 (UTC epoch-ms, day zero): at
`now = 10:30`, the code anchors the forecast to `07:00` — the top of the
hour three hours earlier — not to the most recent 3-hour-aligned run
`09:00` the claim requires; and at a simulated time exactly 20 minutes in
the past the code selects an observation, where the claim ("more than 20
minutes") requires a forecast. -/
theorem c2_counterexample :
    updateWeatherForProgress TimeMode.depart 37800000 1 0 37800000 =
      WeatherProduct.forecast false 25200000 3 30 ∧
    specModelRun3h 37800000 = 32400000 ∧
    (25200000 : ℤ) ≠ 32400000 ∧
    updateWeatherForProgress TimeMode.depart 36600000 1 0 37800000 =
      WeatherProduct.observation 36900000 ∧
    ¬ (36600000 < 37800000 - 20 * 60 * 1000) := by
  refine ⟨?_, ?_, by decide, ?_, by decide⟩
  · norm_num [updateWeatherForProgress, simulatedTimeMs, hourFloorMs, jsTrunc,
      jsRound, jsRemInt]
  · norm_num [specModelRun3h]
  · norm_num [updateWeatherForProgress, simulatedTimeMs, hourFloorMs, jsTrunc,
      jsRound, jsRemInt]

/-- Claim C2, amended: the simulated time is journey start plus
`progress × duration` with journey start computed backward from the
arrival instant in arrive-by mode; a simulated time *at least* 20 minutes
in the past selects an observation keyed to the nearest 15-minute-rounded
timestamp; otherwise a forecast anchored to the *top of the hour three
hours before now* (hour-aligned, not 3-hour-aligned), whose lead time
(simulatedTime − modelRun) is a 15-minute-rounded short-range bucket when
at most 11 hours and a whole-hour-rounded long-range bucket otherwise. -/
theorem c2_weather_product_amended (mode : TimeMode) (inputTime : ℤ)
    (durationHours : ℚ) (progress : ℚ) (now : ℤ) :
    updateWeatherForProgress mode inputTime durationHours progress now =
      c2AmendedProduct mode inputTime durationHours progress now := by
  cases mode <;>
    (simp only [updateWeatherForProgress, c2AmendedProduct, simulatedTimeMs]
     norm_num
     split_ifs <;> first | rfl | omega)

/-! ### Route scoring and ranking (`calculateRoute`, steps 2-4) -/

/-- One point of the elevation profile returned by the elevation
collaborator (`getElevationProfile`). -/
structure ElevPoint where
  elevation : ℚ
deriving DecidableEq

/-- The rating strings of `calculateRouteWindScore` ("Epic"/"Grind"/"N/A"). -/
inductive Rating where
  | epic
  | grind
  | na
deriving DecidableEq

/-- Result of `calculateRouteWindScore`. -/
structure WindScore where
  percentage : ℤ
  rating : Rating
deriving DecidableEq

/-- `calculateRouteWindScore` from `app.js`: the share of segments whose
bearing (via the external `turf.bearing`, parameter `TB`) classifies as
tailwind.  The source's `|| 0` after `Math.round` only guards NaN, which
cannot arise past the length guard, so it is a no-op here. -/
def calculateRouteWindScore (TB : Coord → Coord → ℚ) (geometry : List Coord)
    (windBearing : ℚ) : WindScore :=
  let coords := geometry
  if coords.length < 2 then { percentage := 0, rating := Rating.na }
  else
    let good := ((coords.zip coords.tail).filter
      (fun p => decide (calculateWindImpact (TB p.1 p.2) windBearing =
        WindImpact.tailwind))).length
    let percentage := jsRound ((good : ℚ) / ((coords.length : ℚ) - 1) * 100)
    { percentage := percentage
      rating := if percentage > 70 then Rating.epic else Rating.grind }

/-- The ascent accumulation of `calculateRoute`: sum of positive elevation
deltas between consecutive profile samples. -/
def computeAscent (elevs : List ℚ) : ℚ :=
  ((elevs.zip elevs.tail).map (fun p => if p.1 < p.2 then p.2 - p.1 else 0)).sum

/-- `Math.min(...)` over a list (only used on nonempty lists). -/
def jsMinList (l : List ℚ) : ℚ :=
  match l with
  | [] => 0
  | h :: t => t.foldl min h

/-- A scored route alternative (`{...r, windScore, stats, ascent, score,
originalIndex}`). -/
structure ScoredRoute where
  route : Route
  windScore : WindScore
  stats : RouteStats
  ascent : ℚ
  score : ℚ
  originalIndex : ℕ
deriving DecidableEq

/-- Insertion into a descending-by-score list, modelling the result of
`scoredRoutes.sort((a, b) => b.score - a.score)`. -/
def insertDesc (x : ScoredRoute) : List ScoredRoute → List ScoredRoute
  | [] => [x]
  | y :: ys => if y.score < x.score then x :: y :: ys else y :: insertDesc x ys

/-- Descending insertion sort by score. -/
def sortByScoreDesc : List ScoredRoute → List ScoredRoute
  | [] => []
  | x :: xs => insertDesc x (sortByScoreDesc xs)

lemma insertDesc_perm (x : ScoredRoute) :
    ∀ l : List ScoredRoute, List.Perm (insertDesc x l) (x :: l) := by
  intro l
  induction l with
  | nil => exact List.Perm.refl _
  | cons y ys ih =>
    rw [insertDesc]
    split_ifs with h
    · exact List.Perm.refl _
    · exact (ih.cons y).trans (List.Perm.swap x y ys)

lemma sortByScoreDesc_perm :
    ∀ l : List ScoredRoute, List.Perm (sortByScoreDesc l) l := by
  intro l
  induction l with
  | nil => exact List.Perm.refl _
  | cons x xs ih =>
    rw [sortByScoreDesc]
    exact (insertDesc_perm x (sortByScoreDesc xs)).trans (ih.cons x)

lemma insertDesc_pairwise (x : ScoredRoute) :
    ∀ l : List ScoredRoute,
      List.Pairwise (fun a b => b.score ≤ a.score) l →
      List.Pairwise (fun a b => b.score ≤ a.score) (insertDesc x l) := by
  intro l
  induction l with
  | nil => intro _; simp [insertDesc]
  | cons y ys ih =>
    intro hp
    rcases List.pairwise_cons.mp hp with ⟨hy, hys⟩
    rw [insertDesc]
    split_ifs with h
    · refine List.pairwise_cons.mpr ⟨?_, hp⟩
      intro b hb
      rcases List.mem_cons.mp hb with rfl | hb'
      · exact le_of_lt h
      · exact le_trans (hy b hb') (le_of_lt h)
    · refine List.pairwise_cons.mpr ⟨?_, ih hys⟩
      intro b hb
      rcases List.mem_cons.mp ((insertDesc_perm x ys).mem_iff.mp hb) with rfl | hb'
      · exact le_of_not_lt h
      · exact hy b hb'

lemma sortByScoreDesc_pairwise :
    ∀ l : List ScoredRoute,
      List.Pairwise (fun a b => b.score ≤ a.score) (sortByScoreDesc l) := by
  intro l
  induction l with
  | nil => simp [sortByScoreDesc]
  | cons x xs ih => exact insertDesc_pairwise x _ ih

/-- `weather ? weather.bearing : 0` — the bearing-0 fallback of
`calculateRoute` when the scoring weather fetch failed. -/
def windBearingOf : Option Weather → ℚ
  | some w => w.bearing
  | none => 0

/-- The scoring callback of `calculateRoute` applied to one enumerated
route alternative: wind score, characteristics, ascent, then the
weighted-sum score. -/
def scoreOneRoute (TB : Coord → Coord → ℚ) (EP : List Coord → List ElevPoint)
    (windBearing : ℚ) (avoidARoads preferScenic : Bool) (routes : List Route)
    (p : ℕ × Route) : ScoredRoute :=
  let index := p.1
  let r := p.2
  let windScore := calculateRouteWindScore TB r.geometry windBearing
  let stats := analyzeRouteCharacteristics r
  let profile := EP r.geometry
  let ascent :=
    if profile.length > 0 then computeAscent (profile.map ElevPoint.elevation) else 0
  let score1 : ℚ := 50 + ((windScore.percentage : ℚ) - 50)
  let score2 := score1 + (stats.cycleLanePct : ℚ) * 0.5
  let score3 := if preferScenic then score2 + (stats.scenicScore : ℚ) * 2 else score2
  let score4 := score3 - (stats.aRoadPct : ℚ) * 1.5
  let score5 := score4 - (stats.motorwayPct : ℚ) * 5
  let score6 := score5 - ascent / 10
  let fastestDuration := jsMinList (routes.map Route.duration)
  let durationDiffMins := (r.duration - fastestDuration) / 60
  let score7 := score6 - durationDiffMins * 2
  let score8 := if avoidARoads ∧ stats.aRoadPct > 5 then score7 - 50 else score7
  { route := r, windScore := windScore, stats := stats, ascent := ascent,
    score := score8, originalIndex := index }

/-- Steps 2-4 of `calculateRoute` in `app.js`: fall back to wind bearing 0
when the scoring weather fetch failed, score every alternative with the
weighted-sum formula, and sort descending by score.  `TB` is the external
`turf.bearing`, `EP` the external elevation collaborator. -/
def scoreRoutesForRanking (TB : Coord → Coord → ℚ) (EP : List Coord → List ElevPoint)
    (weather : Option Weather) (avoidARoads preferScenic : Bool)
    (routes : List Route) : List ScoredRoute :=
  if routes.isEmpty then []
  else
    let windBearing := windBearingOf weather
    let scored := routes.enum.map
      (scoreOneRoute TB EP windBearing avoidARoads preferScenic routes)
    sortByScoreDesc scored

lemma scoreOneRoute_formula (TB : Coord → Coord → ℚ) (EP : List Coord → List ElevPoint)
    (wb : ℚ) (avoid prefer : Bool) (routes : List Route) (p : ℕ × Route) :
    (scoreOneRoute TB EP wb avoid prefer routes p).score =
      50 + (((scoreOneRoute TB EP wb avoid prefer routes p).windScore.percentage : ℚ) - 50) +
        ((scoreOneRoute TB EP wb avoid prefer routes p).stats.cycleLanePct : ℚ) * 0.5 +
        (if prefer
          then ((scoreOneRoute TB EP wb avoid prefer routes p).stats.scenicScore : ℚ) * 2
          else 0) -
        ((scoreOneRoute TB EP wb avoid prefer routes p).stats.aRoadPct : ℚ) * 1.5 -
        ((scoreOneRoute TB EP wb avoid prefer routes p).stats.motorwayPct : ℚ) * 5 -
        (scoreOneRoute TB EP wb avoid prefer routes p).ascent / 10 -
        (((scoreOneRoute TB EP wb avoid prefer routes p).route.duration -
          jsMinList (routes.map Route.duration)) / 60) * 2 -
        (if avoid ∧ (scoreOneRoute TB EP wb avoid prefer routes p).stats.aRoadPct > 5
          then 50 else 0) := by
  simp only [scoreOneRoute]
  split_ifs <;> ring

lemma scoreOneRoute_windScore (TB : Coord → Coord → ℚ) (EP : List Coord → List ElevPoint)
    (wb : ℚ) (avoid prefer : Bool) (routes : List Route) (p : ℕ × Route) :
    (scoreOneRoute TB EP wb avoid prefer routes p).windScore =
      calculateRouteWindScore TB
        (scoreOneRoute TB EP wb avoid prefer routes p).route.geometry wb := by
  simp only [scoreOneRoute]

/-- Claim C1: every scored alternative carries the composite score
`50 + (windPct − 50) + 0.5·cycleLanePct + (2·scenicPct if "prefer
scenic") − 1.5·aRoadPct − 5·motorwayPct − ascent/10 − 2·(minutes slower
than the fastest alternative) − (50 if "avoid A-roads" and aRoadPct > 5)`,
the returned list is sorted descending by this score, and index 0 (the
recommended route) carries a maximal score. -/
theorem c1_score_formula_and_ranking (TB : Coord → Coord → ℚ)
    (EP : List Coord → List ElevPoint) (weather : Option Weather)
    (avoid prefer : Bool) (routes : List Route) (sr r0 : ScoredRoute)
    (hsr : sr ∈ scoreRoutesForRanking TB EP weather avoid prefer routes)
    (hr0 : (scoreRoutesForRanking TB EP weather avoid prefer routes).head? = some r0) :
    sr.score =
      50 + ((sr.windScore.percentage : ℚ) - 50) + (sr.stats.cycleLanePct : ℚ) * 0.5 +
        (if prefer then (sr.stats.scenicScore : ℚ) * 2 else 0) -
        (sr.stats.aRoadPct : ℚ) * 1.5 - (sr.stats.motorwayPct : ℚ) * 5 -
        sr.ascent / 10 -
        ((sr.route.duration - jsMinList (routes.map Route.duration)) / 60) * 2 -
        (if avoid ∧ sr.stats.aRoadPct > 5 then 50 else 0) ∧
    List.Pairwise (fun a b => b.score ≤ a.score)
      (scoreRoutesForRanking TB EP weather avoid prefer routes) ∧
    sr.score ≤ r0.score ∧
    (scoreRoutesForRanking TB EP weather avoid prefer routes).length = routes.length := by
  cases hE : routes.isEmpty with
  | true =>
    simp only [scoreRoutesForRanking, hE, if_true] at hsr
    exact absurd hsr (List.not_mem_nil sr)
  | false =>
    have hout : scoreRoutesForRanking TB EP weather avoid prefer routes =
        sortByScoreDesc (routes.enum.map
          (scoreOneRoute TB EP (windBearingOf weather) avoid prefer routes)) := by
      simp [scoreRoutesForRanking, hE]
    rw [hout] at hsr hr0 ⊢
    refine ⟨?_, sortByScoreDesc_pairwise _, ?_, ?_⟩
    · rcases List.mem_map.mp ((sortByScoreDesc_perm _).mem_iff.mp hsr) with ⟨p, _, rfl⟩
      exact scoreOneRoute_formula TB EP (windBearingOf weather) avoid prefer routes p
    · rcases hhead : sortByScoreDesc (routes.enum.map
          (scoreOneRoute TB EP (windBearingOf weather) avoid prefer routes)) with
        _ | ⟨h0, rest⟩
      · rw [hhead] at hr0; cases hr0
      · rw [hhead] at hr0 hsr
        have hh0 : h0 = r0 := Option.some.inj (by simpa using hr0)
        subst hh0
        have hpw := sortByScoreDesc_pairwise (routes.enum.map
          (scoreOneRoute TB EP (windBearingOf weather) avoid prefer routes))
        rw [hhead] at hpw
        rcases List.mem_cons.mp hsr with rfl | hmem
        · exact le_refl _
        · exact (List.pairwise_cons.mp hpw).1 sr hmem
    · rw [(sortByScoreDesc_perm _).length_eq, List.length_map, List.enum_length]

/-- Witness for C1 on a single 60-second route alternative with trivial
collaborators. -/
theorem c1_score_formula_and_ranking_witness :
    (scoreOneRoute (fun _ _ => (0 : ℚ)) (fun _ => []) (windBearingOf none) false false
        [{ geometry := [], distance := 0, duration := 60, legs := [] }]
        (0, { geometry := [], distance := 0, duration := 60, legs := [] }) ∈
      scoreRoutesForRanking (fun _ _ => (0 : ℚ)) (fun _ => []) none false false
        [{ geometry := [], distance := 0, duration := 60, legs := [] }]) ∧
    ((scoreRoutesForRanking (fun _ _ => (0 : ℚ)) (fun _ => []) none false false
        [{ geometry := [], distance := 0, duration := 60, legs := [] }]).head? =
      some (scoreOneRoute (fun _ _ => (0 : ℚ)) (fun _ => []) (windBearingOf none)
        false false [{ geometry := [], distance := 0, duration := 60, legs := [] }]
        (0, { geometry := [], distance := 0, duration := 60, legs := [] }))) ∧
    ((scoreOneRoute (fun _ _ => (0 : ℚ)) (fun _ => []) (windBearingOf none) false false
        [{ geometry := [], distance := 0, duration := 60, legs := [] }]
        (0, { geometry := [], distance := 0, duration := 60, legs := [] })).score ≤
      (scoreOneRoute (fun _ _ => (0 : ℚ)) (fun _ => []) (windBearingOf none) false false
        [{ geometry := [], distance := 0, duration := 60, legs := [] }]
        (0, { geometry := [], distance := 0, duration := 60, legs := [] })).score) ∧
    (scoreRoutesForRanking (fun _ _ => (0 : ℚ)) (fun _ => []) none false false
        [{ geometry := [], distance := 0, duration := 60, legs := [] }]).length =
      ([{ geometry := [], distance := 0, duration := 60, legs := [] }] : List Route).length := by
  have hsr : scoreOneRoute (fun _ _ => (0 : ℚ)) (fun _ => []) (windBearingOf none)
      false false [{ geometry := [], distance := 0, duration := 60, legs := [] }]
      (0, { geometry := [], distance := 0, duration := 60, legs := [] }) ∈
      scoreRoutesForRanking (fun _ _ => (0 : ℚ)) (fun _ => []) none false false
        [{ geometry := [], distance := 0, duration := 60, legs := [] }] :=
    List.mem_singleton.mpr rfl
  have hr0 : (scoreRoutesForRanking (fun _ _ => (0 : ℚ)) (fun _ => []) none false false
      [{ geometry := [], distance := 0, duration := 60, legs := [] }]).head? =
      some (scoreOneRoute (fun _ _ => (0 : ℚ)) (fun _ => []) (windBearingOf none)
        false false [{ geometry := [], distance := 0, duration := 60, legs := [] }]
        (0, { geometry := [], distance := 0, duration := 60, legs := [] })) := rfl
  have h := c1_score_formula_and_ranking (fun _ _ => (0 : ℚ)) (fun _ => []) none
    false false [{ geometry := [], distance := 0, duration := 60, legs := [] }] _ _ hsr hr0
  exact ⟨hsr, hr0, h.2.2.1, h.2.2.2⟩

/-- Claim C9: with a failed scoring weather fetch (`weather = none`) the
ranking still completes: every scored alternative's wind score is computed
with the fallback bearing 0, the output is sorted descending by score, and
one scored alternative is produced per candidate route. -/
theorem c9_weather_fallback (TB : Coord → Coord → ℚ)
    (EP : List Coord → List ElevPoint) (avoid prefer : Bool)
    (routes : List Route) (sr : ScoredRoute)
    (hsr : sr ∈ scoreRoutesForRanking TB EP none avoid prefer routes) :
    sr.windScore = calculateRouteWindScore TB sr.route.geometry 0 ∧
    List.Pairwise (fun a b => b.score ≤ a.score)
      (scoreRoutesForRanking TB EP none avoid prefer routes) ∧
    (scoreRoutesForRanking TB EP none avoid prefer routes).length = routes.length := by
  cases hE : routes.isEmpty with
  | true =>
    simp only [scoreRoutesForRanking, hE, if_true] at hsr
    exact absurd hsr (List.not_mem_nil sr)
  | false =>
    have hout : scoreRoutesForRanking TB EP none avoid prefer routes =
        sortByScoreDesc (routes.enum.map
          (scoreOneRoute TB EP (windBearingOf none) avoid prefer routes)) := by
      simp [scoreRoutesForRanking, hE]
    rw [hout] at hsr ⊢
    refine ⟨?_, sortByScoreDesc_pairwise _, ?_⟩
    · rcases List.mem_map.mp ((sortByScoreDesc_perm _).mem_iff.mp hsr) with ⟨p, _, rfl⟩
      exact scoreOneRoute_windScore TB EP (windBearingOf none) avoid prefer routes p
    · rw [(sortByScoreDesc_perm _).length_eq, List.length_map, List.enum_length]

/-- Witness for C9 on a single route alternative. -/
theorem c9_weather_fallback_witness :
    (scoreOneRoute (fun _ _ => (0 : ℚ)) (fun _ => []) (windBearingOf none) true true
        [{ geometry := [], distance := 0, duration := 60, legs := [] }]
        (0, { geometry := [], distance := 0, duration := 60, legs := [] }) ∈
      scoreRoutesForRanking (fun _ _ => (0 : ℚ)) (fun _ => []) none true true
        [{ geometry := [], distance := 0, duration := 60, legs := [] }]) ∧
    ((scoreOneRoute (fun _ _ => (0 : ℚ)) (fun _ => []) (windBearingOf none) true true
        [{ geometry := [], distance := 0, duration := 60, legs := [] }]
        (0, { geometry := [], distance := 0, duration := 60, legs := [] })).windScore =
      calculateRouteWindScore (fun _ _ => (0 : ℚ))
        (scoreOneRoute (fun _ _ => (0 : ℚ)) (fun _ => []) (windBearingOf none) true true
          [{ geometry := [], distance := 0, duration := 60, legs := [] }]
          (0, { geometry := [], distance := 0, duration := 60, legs := [] })).route.geometry
        0) ∧
    (scoreRoutesForRanking (fun _ _ => (0 : ℚ)) (fun _ => []) none true true
        [{ geometry := [], distance := 0, duration := 60, legs := [] }]).length =
      ([{ geometry := [], distance := 0, duration := 60, legs := [] }] : List Route).length := by
  have hsr : scoreOneRoute (fun _ _ => (0 : ℚ)) (fun _ => []) (windBearingOf none)
      true true [{ geometry := [], distance := 0, duration := 60, legs := [] }]
      (0, { geometry := [], distance := 0, duration := 60, legs := [] }) ∈
      scoreRoutesForRanking (fun _ _ => (0 : ℚ)) (fun _ => []) none true true
        [{ geometry := [], distance := 0, duration := 60, legs := [] }] :=
    List.mem_singleton.mpr rfl
  have h := c9_weather_fallback (fun _ _ => (0 : ℚ)) (fun _ => []) true true
    [{ geometry := [], distance := 0, duration := 60, legs := [] }] _ hsr
  exact ⟨hsr, h.1, h.2.2⟩

end RouteTracker
